import Mathlib

/-!
Verification development for the secrets key-value abstraction layer of the
repository: the backend selector (`ProvideService`), the fixed-scope view
(`FixedKVStore`), the caching decorator, and the data-source secret migration
engine (`DataSourceSecretMigrationService`).

Go machinery is embedded shallowly: Go functions become Lean functions,
`(value, error)` multi-returns become pairs with an `Option Err` component
(mirroring the Go code, which inspects the error component and may ignore the
value component), stateful code becomes explicit state passing, and external
collaborators (the remote-plugin capability check, the data-source service,
the feature-toggle service, the event bus) become oracle parameters.
-/

/-- Go `error` values, abstracted as strings (only identity matters here). -/
abbrev Err := String

/-! ## Backend selector (`ProvideService`, kvstore.go lines 18-61) -/

/-- The store implementation chosen at startup: the SQL-backed store
(`secretsKVStoreSQL`) or the plugin-backed store (`secretsKVStorePlugin`
holding the acquired plugin handle, abstracted as a `Nat`). -/
inductive SelectedStore where
  | sql : SelectedStore
  | plugin : Nat → SelectedStore
deriving DecidableEq, Repr

/-- The cache TTL passed to `NewCachedKVStore` in `ProvideService`
(`5*time.Second`), in seconds. -/
def cacheTTLSeconds : Nat := 5

/-- The cache cleanup (sweep) interval passed to `NewCachedKVStore` in
`ProvideService` (`5*time.Minute`), in seconds. -/
def cacheCleanupIntervalSeconds : Nat := 300

/-- Shallow embedding of `ProvideService` (kvstore.go lines 18-61).

Inputs are the results of the external calls the function makes, mirroring
Go multi-returns:
* `shouldUse` — result of `remoteCheck.ShouldUseRemoteSecretsPlugin()`,
  a `(bool, error)` pair; the code tests `err == nil && usePlugin`;
* `getPl` — result of `remoteCheck.GetPlugin()`, a `(plugin, error)` pair;
  only the error component is branched on;
* `fatalCheck` — result of `isPluginErrorFatal(...)`, a `(bool, error)` pair;
  the code tests `isFatal || err2 != nil`.

The result is the value of `return NewCachedKVStore(store, 5*time.Second,
5*time.Minute), nil` on success — the selected backend together with the TTL
and sweep interval handed to the cache wrapper — or the propagated error on
the abort paths (`return nil, err2` / `return nil, err`). -/
def provideService (shouldUse : Bool × Option Err) (getPl : Nat × Option Err)
    (fatalCheck : Bool × Option Err) : Except Err (SelectedStore × Nat × Nat) :=
  match shouldUse with
  | (true, none) =>
    -- plugin should be used and there was no error starting it
    match getPl with
    | (_, some _) =>
      -- plugin client was nil, falling back to SQL implementation
      .ok (.sql, cacheTTLSeconds, cacheCleanupIntervalSeconds)
    | (p, none) =>
      .ok (.plugin p, cacheTTLSeconds, cacheCleanupIntervalSeconds)
  | (_, some e) =>
    -- there was an error starting the plugin
    if fatalCheck.1 || fatalCheck.2.isSome then
      -- plugin error was fatal or there was an error determining fatality
      match fatalCheck.2 with
      | some e2 => .error e2
      | none => .error e
    else
      .ok (.sql, cacheTTLSeconds, cacheCleanupIntervalSeconds)
  | (false, none) =>
    -- default (SQL) implementation
    .ok (.sql, cacheTTLSeconds, cacheCleanupIntervalSeconds)

/-! ## Fixed-scope view (`FixedKVStore`, kvstore.go lines 73-113) -/

/-- One call issued to the wrapped `SecretsKVStore`, with its arguments. -/
inductive StoreCall where
  | get (orgId : Int) (ns : String) (typ : String)
  | set (orgId : Int) (ns : String) (typ : String) (value : String)
  | del (orgId : Int) (ns : String) (typ : String)
  | keys (orgId : Int) (ns : String) (typ : String)
  | rename (orgId : Int) (ns : String) (typ : String) (newNamespace : String)
deriving DecidableEq, Repr

/-- Response oracle for the wrapped `SecretsKVStore`: the result each
operation would return for given arguments. -/
structure StoreOps where
  get : Int → String → String → String × Bool × Option Err
  set : Int → String → String → String → Option Err
  del : Int → String → String → Option Err
  keys : Int → String → String → List (Int × String × String) × Option Err
  rename : Int → String → String → String → Option Err

/-- `FixedKVStore` (kvstore.go lines 83-88): a `SecretsKVStore` wrapper with
fixed orgId, namespace and type. The Go field `Type` is spelled `Typ` here
because `Type` is reserved in Lean. -/
structure FixedKVStore where
  OrgId : Int
  Namespace : String
  Typ : String
deriving DecidableEq, Repr

/-- `FixedKVStore.Get`: delegates to the wrapped store with the bound triple.
The second component records the calls issued to the wrapped store. -/
def FixedKVStore.get (kv : FixedKVStore) (s : StoreOps) :
    (String × Bool × Option Err) × List StoreCall :=
  (s.get kv.OrgId kv.Namespace kv.Typ, [StoreCall.get kv.OrgId kv.Namespace kv.Typ])

/-- `FixedKVStore.Set`. -/
def FixedKVStore.set (kv : FixedKVStore) (s : StoreOps) (value : String) :
    Option Err × List StoreCall :=
  (s.set kv.OrgId kv.Namespace kv.Typ value,
   [StoreCall.set kv.OrgId kv.Namespace kv.Typ value])

/-- `FixedKVStore.Del`. -/
def FixedKVStore.del (kv : FixedKVStore) (s : StoreOps) :
    Option Err × List StoreCall :=
  (s.del kv.OrgId kv.Namespace kv.Typ, [StoreCall.del kv.OrgId kv.Namespace kv.Typ])

/-- `FixedKVStore.Keys`. -/
def FixedKVStore.keys (kv : FixedKVStore) (s : StoreOps) :
    (List (Int × String × String) × Option Err) × List StoreCall :=
  (s.keys kv.OrgId kv.Namespace kv.Typ, [StoreCall.keys kv.OrgId kv.Namespace kv.Typ])

/-- `FixedKVStore.Rename` (kvstore.go lines 106-113): delegates, and only on
success updates the view's own `Namespace` field; on error the error is
returned and the view is unchanged. Returns (error, updated view, calls). -/
def FixedKVStore.rename (kv : FixedKVStore) (s : StoreOps) (newNamespace : String) :
    (Option Err × FixedKVStore) × List StoreCall :=
  match s.rename kv.OrgId kv.Namespace kv.Typ newNamespace with
  | some e =>
    ((some e, kv), [StoreCall.rename kv.OrgId kv.Namespace kv.Typ newNamespace])
  | none =>
    ((none, { kv with Namespace := newNamespace }),
     [StoreCall.rename kv.OrgId kv.Namespace kv.Typ newNamespace])

/-! ## Caching decorator

The implementation of `NewCachedKVStore` is not among the provided source
files (kvstore.go only calls it at line 60), so the decorator is modelled
from the spec (sections 3 "Cache Entry" and 4.2 "Caching Decorator"). -/

/-- A secret-record key: (tenant/org id, namespace, type). -/
abbrev Triple := Int × String × String

/-- The underlying store content, as a map from key triple to value. -/
abbrev KVMap := Triple → Option String

/-- Point update of a `KVMap`. -/
def mupdate (m : KVMap) (t : Triple) (v : Option String) : KVMap :=
  fun t' => if t' = t then v else m t'

/-- Modelled from the spec: a cache entry "holds the last-known value, a
present/absent flag, and an expiry timestamp" (spec section 3). -/
structure CacheEntry where
  value : String
  present : Bool
  expires : Nat
deriving DecidableEq, Repr

/-- The cache table, keyed identically to a secret record. -/
abbrev CacheMap := Triple → Option CacheEntry

/-- Point update of a `CacheMap`. -/
def cupdate (m : CacheMap) (t : Triple) (v : Option CacheEntry) : CacheMap :=
  fun t' => if t' = t then v else m t'

/-- Modelled from the spec: the state of the caching decorator built by
`NewCachedKVStore` — the wrapped store's content, the cache table, and the
TTL. The wrapped store is modelled as an always-successful map store, so
every mutation below is the "successful underlying call" case of spec
section 4.2. -/
structure CachedKV where
  store : KVMap
  cache : CacheMap
  ttl : Nat

/-- Modelled from the spec: cache miss path of `Get` — "call through, and on
success populate the cache with the result and a freshly computed expiry
(now + TTL)" (spec section 4.2). A missing underlying key yields the Go zero
value with `found = false`. -/
def CachedKV.readThrough (st : CachedKV) (now : Nat) (t : Triple) :
    (String × Bool) × CachedKV :=
  let r := match st.store t with
    | some v => (v, true)
    | none => ("", false)
  (r, { st with cache := cupdate st.cache t (some ⟨r.1, r.2, now + st.ttl⟩) })

/-- Modelled from the spec: `Get` — "consult the cache; if a live
(non-expired) entry exists, return it without touching the underlying
store. Otherwise call through" (spec section 4.2); "a cache entry must never
be consulted past its expiry" (spec section 3), so liveness is `now < expires`. -/
def CachedKV.get (st : CachedKV) (now : Nat) (t : Triple) :
    (String × Bool) × CachedKV :=
  match st.cache t with
  | some e => if now < e.expires then ((e.value, e.present), st)
              else st.readThrough now t
  | none => st.readThrough now t

/-- Modelled from the spec: `Set` — "always call through to the underlying
store first; only on success, invalidate the cache entry for the affected
key" (spec section 4.2). -/
def CachedKV.set (st : CachedKV) (t : Triple) (v : String) : CachedKV :=
  { st with store := mupdate st.store t (some v), cache := cupdate st.cache t none }

/-- Modelled from the spec: `Del` — call through, then invalidate the cache
entry (spec section 4.2). -/
def CachedKV.del (st : CachedKV) (t : Triple) : CachedKV :=
  { st with store := mupdate st.store t none, cache := cupdate st.cache t none }

/-- Modelled from the spec: `Rename` — "renaming a namespace is a move
operation, not a copy (old key ceases to exist, new key holds the value)"
(spec section 3); "for `Rename`, invalidate both the old and new key"
(spec section 4.2). -/
def CachedKV.rename (st : CachedKV) (t : Triple) (newNs : String) : CachedKV :=
  let t2 : Triple := (t.1, newNs, t.2.2)
  let store' := match st.store t with
    | none => st.store
    | some v => mupdate (mupdate st.store t none) t2 (some v)
  { st with store := store', cache := cupdate (cupdate st.cache t none) t2 none }

/-! ## Migration engine (`DataSourceSecretMigrationService`, part_001 lines 307-391) -/

/-- A value inside a data source's `JsonData` settings blob (Go
`simplejson`). Only enough structure is needed to model
`Get("secretMigrationComplete").Bool()` and `Set(..., true)`. -/
inductive JVal where
  | bool (b : Bool)
  | str (s : String)
  | num (n : Int)
deriving DecidableEq, Repr

/-- A settings blob: an association list of keys to values. -/
abbrev JsonData := List (String × JVal)

/-- Lookup of a key in a settings blob. -/
def jsonLookup (j : JsonData) (k : String) : Option JVal :=
  match j with
  | [] => none
  | (k', v) :: rest => if k' = k then some v else jsonLookup rest k

/-- `JsonData.Set`: replace the value at a key, or append it. -/
def jsonSet (j : JsonData) (k : String) (v : JVal) : JsonData :=
  match j with
  | [] => [(k, v)]
  | (k', v') :: rest => if k' = k then (k, v) :: rest else (k', v') :: jsonSet rest k v

/-- A data-source record as the migration engine sees it: identity fields,
the settings blob, and the legacy secure payload (`SecureJsonData`, whose
values are encrypted bytes abstracted as strings). -/
structure DataSourceRec where
  id : Int
  orgId : Int
  uid : String
  name : String
  jsonData : JsonData
  secureJsonData : List (String × String)
deriving DecidableEq, Repr

/-- `dataSourceSecretType` (part_001 line 304). -/
def dataSourceSecretType : String := "datasource"

/-- part_001 line 356: `hasMigration, _ := ds.JsonData.Get("secretMigrationComplete").Bool()`.
`simplejson`'s `.Bool()` returns the value when the entry is a JSON boolean
and `(false, error)` otherwise; the error is discarded by the code, so the
marker is considered set exactly when the entry is the boolean `true`. -/
def hasMarker (ds : DataSourceRec) : Bool :=
  match jsonLookup ds.jsonData "secretMigrationComplete" with
  | some (JVal.bool b) => b
  | _ => false

/-- `json.Marshal` of the decrypted secure data (part_001 line 363),
modelled as a concrete JSON-object serialization. -/
def serializeSecrets (m : List (String × String)) : String :=
  "\x7b" ++ String.intercalate "," (m.map fun p => "\"" ++ p.1 ++ "\":\"" ++ p.2 ++ "\"") ++ "\x7d"

/-- Oracles for the external collaborators of `Run`: the data-source
service's listing/decrypt/update/delete calls (with injectable failures)
and the `FlagDisableSecretsCompatibility` feature toggle. The KV-store `Set`
failure oracle is keyed by the full call arguments. -/
structure MigrationSvc where
  listErr : Option Err
  decrypt : DataSourceRec → Except Err (List (String × String))
  setErr : Int → String → String → String → Option Err
  updateErr : Int → Int → String → JsonData → Option Err
  deleteErr : String → Int → Int → Option Err
  disableSecretsCompatibility : Bool

/-- The per-record effect of `UpdateDataSource`: replace the settings blob of
the record addressed by (id, orgId). -/
def stampRecord (id orgId : Int) (j : JsonData) (r : DataSourceRec) : DataSourceRec :=
  if r.id = id ∧ r.orgId = orgId then { r with jsonData := j } else r

/-- The per-record effect of `DeleteDataSourceSecrets`: clear the legacy
secure payload of the record addressed by (id, orgId). -/
def clearRecord (id orgId : Int) (r : DataSourceRec) : DataSourceRec :=
  if r.id = id ∧ r.orgId = orgId then { r with secureJsonData := [] } else r

/-- `UpdateDataSource(&UpdateDataSourceCommand{Id, OrgId, Uid, JsonData})`
(part_001 line 374): persist the new settings blob on the matching record. -/
def updateRecords (recs : List DataSourceRec) (id orgId : Int) (j : JsonData) :
    List DataSourceRec :=
  recs.map (stampRecord id orgId j)

/-- `DeleteDataSourceSecrets(&DeleteDataSourceSecretsCommand{UID, OrgID, ID})`
(part_001 line 381): clear the legacy secure payload of the matching record. -/
def clearSecrets (recs : List DataSourceRec) (id orgId : Int) :
    List DataSourceRec :=
  recs.map (clearRecord id orgId)

/-- part_001 lines 380-385: the legacy-payload cleanup step — not gated by
the completion marker; runs when the compatibility-disable flag is enabled
and the fetched record's legacy payload is non-empty. Returns
(error, records, kv). -/
def cleanupStep (svc : MigrationSvc) (ds : DataSourceRec)
    (recs : List DataSourceRec) (kv : KVMap) :
    Option Err × List DataSourceRec × KVMap :=
  if svc.disableSecretsCompatibility = true ∧ 0 < ds.secureJsonData.length then
    match svc.deleteErr ds.uid ds.orgId ds.id with
    | some e => (some e, recs, kv)
    | none => (none, clearSecrets recs ds.id ds.orgId, kv)
  else
    (none, recs, kv)

/-- part_001 lines 355-386: the body of the migration loop for one fetched
record `ds`, acting on the current database state (records, kv). If the
marker is unset: decrypt the legacy secrets, serialize, `Set` into the KV
store under (orgId, name, "datasource"), stamp the marker and persist the
record; any error stops the step. Then the cleanup step runs. -/
def migStep (svc : MigrationSvc) (ds : DataSourceRec)
    (recs : List DataSourceRec) (kv : KVMap) :
    Option Err × List DataSourceRec × KVMap :=
  if hasMarker ds then
    cleanupStep svc ds recs kv
  else
    match svc.decrypt ds with
    | .error e => (some e, recs, kv)
    | .ok secureData =>
      let payload := serializeSecrets secureData
      match svc.setErr ds.orgId ds.name dataSourceSecretType payload with
      | some e => (some e, recs, kv)
      | none =>
        let kv' := mupdate kv (ds.orgId, ds.name, dataSourceSecretType) (some payload)
        let newJson := jsonSet ds.jsonData "secretMigrationComplete" (JVal.bool true)
        match svc.updateErr ds.id ds.orgId ds.uid newJson with
        | some e => (some e, recs, kv')
        | none => cleanupStep svc ds (updateRecords recs ds.id ds.orgId newJson) kv'

/-- part_001 lines 355-387: the `for _, ds := range query.Result` loop,
stopping at the first error. `fetched` is the record list returned by
`GetDataSources` at the start of the transaction. -/
def migLoop (svc : MigrationSvc) (fetched : List DataSourceRec)
    (recs : List DataSourceRec) (kv : KVMap) :
    Option Err × List DataSourceRec × KVMap :=
  match fetched with
  | [] => (none, recs, kv)
  | ds :: rest =>
    match migStep svc ds recs kv with
    | (some e, recs', kv') => (some e, recs', kv')
    | (none, recs', kv') => migLoop svc rest recs' kv'

/-- part_001 lines 331-343, `WaitForProvisioning`, embedded faithfully to Go
semantics: `time.After(5 * time.Second)` is called as a bare expression and
its channel is discarded, so no time elapses between registering the event
listener (at clock `t`) and re-checking the `wait` flag — the flag is set
only by a `DataSourceCreated` event dispatched in the empty window `[t, t)`.
`events` lists the arrival clock times of such events; `fuel` bounds the
recursion depth; `some r` means the call returned with Go error `r`
(`none` = nil), and the outer `none` means fuel ran out. -/
def waitForProvisioning (events : List Nat) (t : Nat) : Nat → Option (Option Err)
  | 0 => none
  | fuel + 1 =>
    let wait := events.any fun e => decide (t ≤ e) && decide (e < t)
    if wait then waitForProvisioning events t fuel else some none

/-- Modelled from the spec: the await-provisioning phase as specified
(spec section 4.7 / claim wording) — register a listener, wait the fixed
interval, then re-check whether a notification arrived during that interval;
repeat on yes, proceed on no. Returns the clock time at which it proceeds. -/
def waitForProvisioningSpec (events : List Nat) (interval : Nat) (t : Nat) :
    Nat → Option Nat
  | 0 => none
  | fuel + 1 =>
    let wait := events.any fun e => decide (t ≤ e) && decide (e < t + interval)
    if wait then waitForProvisioningSpec events interval (t + interval) fuel
    else some (t + interval)

/-- The migration engine's durable state: the data-source records (owned by
the SQL transaction) and the secrets KV-store content (written outside the
transaction's rollback scope, spec section 5). -/
structure MigState where
  records : List DataSourceRec
  kv : KVMap

/-- part_001 lines 345-391, `DataSourceSecretMigrationService.Run`: call
`WaitForProvisioning` with the result discarded, then run the migration loop
inside `sqlStore.InTransaction`. `InTransaction` is not among the provided
sources; modelled from the spec: on error the whole transaction rolls back —
record updates are undone — while KV-store writes persist (spec sections 4.4
and 5), and the error is surfaced. `GetDataSources` fetches the current
records (failure injectable via `svc.listErr`). -/
def Run (svc : MigrationSvc) (events : List Nat) (fuel : Nat) (st : MigState) :
    Except Err Unit × MigState :=
  let _wait := waitForProvisioning events 0 fuel
  match svc.listErr with
  | some e => (.error e, st)
  | none =>
    match migLoop svc st.records st.records st.kv with
    | (none, recs', kv') => (.ok (), ⟨recs', kv'⟩)
    | (some e, _, kv') => (.error e, ⟨st.records, kv'⟩)

/-! ## Auxiliary predicates and concrete instances used in the theorems -/

/-- A record the migration pass has fully handled: completion marker set,
and — when the compatibility-disable flag is on — legacy payload cleared. -/
def recordDone (flag : Bool) (r : DataSourceRec) : Prop :=
  hasMarker r = true ∧ (flag = true → r.secureJsonData = [])

/-- Relation between a fetched record `ds` and the current database row `r`
it addresses: same identity, and `r` is at least as migrated as `ds` (the
loop only ever adds the completion marker and clears legacy payloads). -/
def pendingFor (flag : Bool) (ds r : DataSourceRec) : Prop :=
  ds.id = r.id ∧ ds.orgId = r.orgId ∧
  (hasMarker ds = true → hasMarker r = true) ∧
  (flag = true → ds.secureJsonData = [] → r.secureJsonData = [])

/-- The empty secrets KV store. -/
def emptyKV : KVMap := fun _ => none

/-- Scenario record (spec section 8): tenant 7, data source "influx-1",
legacy secret under key "password", no completion marker. -/
def dsInflux : DataSourceRec :=
  { id := 11, orgId := 7, uid := "uid-influx", name := "influx-1",
    jsonData := [], secureJsonData := [("password", "cipher-p@ss")] }

/-- A record of tenant 7 that already carries the completion marker and a
non-empty legacy payload (migrated in a previous pass before the cleanup
flag was enabled). -/
def dsMigrated : DataSourceRec :=
  { id := 12, orgId := 7, uid := "uid-pg", name := "postgres-1",
    jsonData := [("secretMigrationComplete", JVal.bool true)],
    secureJsonData := [("password", "cipher-x")] }

/-- Honest collaborators for the scenario: no injected failures, decrypting
the influx record yields the plaintext secret, and the compatibility-disable
flag is active. -/
def svcScenario : MigrationSvc :=
  { listErr := none
    decrypt := fun ds =>
      if ds.name = "influx-1" then .ok [("password", "p@ss")] else .ok []
    setErr := fun _ _ _ _ => none
    updateErr := fun _ _ _ _ => none
    deleteErr := fun _ _ _ => none
    disableSecretsCompatibility := true }

/-- Collaborators whose decryption call always fails. -/
def svcDecryptFail : MigrationSvc :=
  { listErr := none
    decrypt := fun _ => .error "decrypt failed"
    setErr := fun _ _ _ _ => none
    updateErr := fun _ _ _ _ => none
    deleteErr := fun _ _ _ => none
    disableSecretsCompatibility := false }

/-- A concrete wrapped-store response oracle. -/
def sampleStoreOps : StoreOps :=
  { get := fun _ _ _ => ("v", true, none)
    set := fun _ _ _ _ => none
    del := fun _ _ _ => none
    keys := fun _ _ _ => ([], none)
    rename := fun _ _ _ _ => none }

/-- A wrapped-store response oracle whose `Rename` always fails. -/
def sampleStoreOpsRenameFail : StoreOps :=
  { sampleStoreOps with rename := fun _ _ _ _ => some "rename failed" }

/-- A concrete caching-decorator state: one stored value, empty cache. -/
def sampleCachedKV : CachedKV :=
  { store := fun t => if t = ((1 : Int), "a", "x") then some "old" else none
    cache := fun _ => none
    ttl := 5 }

/-! ## Theorems -/

/-- C1: The backend selector (`ProvideService`) yields exactly one outcome per
startup: capability check cleanly false → SQL backend; true and acquisition
succeeds → plugin backend; true and acquisition fails → SQL backend
(logged fallback); capability-check error → if the persisted fatal
classification says fatal the original error is propagated with no store, if
the classification check itself errors that error is propagated with no
store, and otherwise the SQL backend is used. -/
theorem provideService_outcomes :
    (∀ gp fc, provideService (false, none) gp fc =
      .ok (.sql, cacheTTLSeconds, cacheCleanupIntervalSeconds))
    ∧ (∀ p fc, provideService (true, none) (p, none) fc =
      .ok (.plugin p, cacheTTLSeconds, cacheCleanupIntervalSeconds))
    ∧ (∀ p e fc, provideService (true, none) (p, some e) fc =
      .ok (.sql, cacheTTLSeconds, cacheCleanupIntervalSeconds))
    ∧ (∀ b e gp, provideService (b, some e) gp (true, none) = .error e)
    ∧ (∀ b e gp fb e2, provideService (b, some e) gp (fb, some e2) = .error e2)
    ∧ (∀ b e gp, provideService (b, some e) gp (false, none) =
      .ok (.sql, cacheTTLSeconds, cacheCleanupIntervalSeconds)) := by
  refine ⟨fun gp fc => rfl, fun p fc => rfl, fun p e fc => rfl, ?_, ?_, ?_⟩
  · intro b e gp; cases b <;> rfl
  · intro b e gp fb e2; cases b <;> cases fb <;> rfl
  · intro b e gp; cases b <;> rfl

/-- C7 counterexample: the TTL and sweep interval handed to `NewCachedKVStore`
by `ProvideService` do not come from any parameter — two startups whose every
input differs still get TTL 5 seconds and sweep interval 300 seconds
(`5*time.Second`, `5*time.Minute` are literals at kvstore.go line 60, and
`ProvideService` takes no configuration argument for them). -/
theorem provideService_ttl_constant_cex :
    provideService (false, none) (0, none) (false, none)
      = .ok (.sql, 5, 300)
    ∧ provideService (true, none) (7, none) (true, some "classification failed")
      = .ok (.plugin 7, 5, 300) :=
  ⟨rfl, rfl⟩

/-- C7 (amended): the cache TTL and sweep interval used by the store that
`ProvideService` returns are hard-coded constants — 5 seconds and 5 minutes —
identical for every startup outcome; they are not externally supplied
configuration values. -/
theorem provideService_ttl_hardCoded :
    ∀ su gp fc b ttl sweep, provideService su gp fc = .ok (b, ttl, sweep) →
      ttl = 5 ∧ sweep = 300 := by
  intro su gp fc b ttl sweep h
  rcases su with ⟨sb, se⟩
  rcases gp with ⟨p, ge⟩
  rcases fc with ⟨fb, fe⟩
  cases se <;> cases sb <;> cases ge <;> cases fb <;> cases fe <;>
    simp_all [provideService, cacheTTLSeconds, cacheCleanupIntervalSeconds]

/-- Closed instance of `provideService_ttl_hardCoded` at a concrete startup. -/
theorem provideService_ttl_hardCoded_witness :
    provideService (true, none) (3, none) (false, none) = .ok (.plugin 3, 5, 300)
    ∧ ((5 : Nat) = 5 ∧ (300 : Nat) = 300) :=
  ⟨rfl, provideService_ttl_hardCoded (true, none) (3, none) (false, none)
    (.plugin 3) 5 300 rfl⟩

/-- C8: every `FixedKVStore` operation delegates exactly once to the wrapped
store with the bound (OrgId, Namespace, Type) triple — the issued-call trace
is the one delegated call and the result is the wrapped store's response
unchanged (no caching, no retry). `Rename` additionally sets the view's
`Namespace` to the new namespace when the underlying call succeeds, and on
failure returns the error with OrgId, Namespace and Typ all unchanged. -/
theorem fixedKVStore_delegation :
    ∀ (kv : FixedKVStore) (s : StoreOps) (v newNs : String),
      (kv.get s = (s.get kv.OrgId kv.Namespace kv.Typ,
        [StoreCall.get kv.OrgId kv.Namespace kv.Typ]))
      ∧ (kv.set s v = (s.set kv.OrgId kv.Namespace kv.Typ v,
        [StoreCall.set kv.OrgId kv.Namespace kv.Typ v]))
      ∧ (kv.del s = (s.del kv.OrgId kv.Namespace kv.Typ,
        [StoreCall.del kv.OrgId kv.Namespace kv.Typ]))
      ∧ (kv.keys s = (s.keys kv.OrgId kv.Namespace kv.Typ,
        [StoreCall.keys kv.OrgId kv.Namespace kv.Typ]))
      ∧ ((kv.rename s newNs).2 = [StoreCall.rename kv.OrgId kv.Namespace kv.Typ newNs])
      ∧ (s.rename kv.OrgId kv.Namespace kv.Typ newNs = none →
          (kv.rename s newNs).1 = (none, { kv with Namespace := newNs }))
      ∧ (∀ e, s.rename kv.OrgId kv.Namespace kv.Typ newNs = some e →
          (kv.rename s newNs).1 = (some e, kv)) := by
  intro kv s v newNs
  refine ⟨rfl, rfl, rfl, rfl, ?_, ?_, ?_⟩
  · unfold FixedKVStore.rename
    cases s.rename kv.OrgId kv.Namespace kv.Typ newNs <;> rfl
  · intro h; unfold FixedKVStore.rename; rw [h]
  · intro e h; unfold FixedKVStore.rename; rw [h]

/-- Closed instance of `fixedKVStore_delegation`: a succeeding and a failing
`Rename` on the view bound to (1, "ns", "ty"). -/
theorem fixedKVStore_delegation_witness :
    (sampleStoreOps.rename 1 "ns" "ty" "ns2" = none
      ∧ ((FixedKVStore.mk 1 "ns" "ty").rename sampleStoreOps "ns2").1
          = (none, FixedKVStore.mk 1 "ns2" "ty"))
    ∧ (sampleStoreOpsRenameFail.rename 1 "ns" "ty" "ns2" = some "rename failed"
      ∧ ((FixedKVStore.mk 1 "ns" "ty").rename sampleStoreOpsRenameFail "ns2").1
          = (some "rename failed", FixedKVStore.mk 1 "ns" "ty")) :=
  ⟨⟨rfl, (fixedKVStore_delegation (FixedKVStore.mk 1 "ns" "ty") sampleStoreOps
      "v" "ns2").2.2.2.2.2.1 rfl⟩,
   ⟨rfl, (fixedKVStore_delegation (FixedKVStore.mk 1 "ns" "ty") sampleStoreOpsRenameFail
      "v" "ns2").2.2.2.2.2.2 "rename failed" rfl⟩⟩

/-- C2: on the caching decorator, a `Get` immediately following a successful
mutation of the same key triple reflects the mutation: after `Set` it returns
the just-written value (both on the first read and on a subsequent read that
may be served from cache), after `Del` it returns not-found (never a stale
cached value), and after `Rename(t, ns, ty, ns2)` with `ns ≠ ns2` a get at
`(t, ns, ty)` returns not-found while a get at `(t, ns2, ty)` returns the
value previously stored at `(t, ns, ty)`. -/
theorem cachedKV_mutation_read_consistency :
    ∀ (st : CachedKV) (o : Int) (ns ns2 ty v : String) (now now' : Nat),
      (((st.set (o, ns, ty) v).get now (o, ns, ty)).1 = (v, true))
      ∧ (((((st.set (o, ns, ty) v).get now (o, ns, ty)).2).get now' (o, ns, ty)).1
          = (v, true))
      ∧ (((st.del (o, ns, ty)).get now (o, ns, ty)).1 = ("", false))
      ∧ (st.store (o, ns, ty) = some v → ns ≠ ns2 →
          (((st.rename (o, ns, ty) ns2).get now (o, ns, ty)).1 = ("", false))
          ∧ (((st.rename (o, ns, ty) ns2).get now (o, ns2, ty)).1 = (v, true))) := by
  intro st o ns ns2 ty v now now'
  refine ⟨?_, ?_, ?_, ?_⟩
  · simp [CachedKV.set, CachedKV.get, CachedKV.readThrough, mupdate, cupdate]
  · by_cases hlt : now' < now + st.ttl <;>
      simp [CachedKV.set, CachedKV.get, CachedKV.readThrough, mupdate, cupdate, hlt]
  · simp [CachedKV.del, CachedKV.get, CachedKV.readThrough, mupdate, cupdate]
  · intro h hne
    have hne' : ns2 ≠ ns := Ne.symm hne
    constructor
    · simp [CachedKV.rename, CachedKV.get, CachedKV.readThrough, mupdate, cupdate,
        h, hne, hne']
    · simp [CachedKV.rename, CachedKV.get, CachedKV.readThrough, mupdate, cupdate,
        h, hne, hne']

/-- Closed instance of `cachedKV_mutation_read_consistency`: rename on a
concrete state with a stored value at (1, "a", "x"). -/
theorem cachedKV_mutation_read_consistency_witness :
    (sampleCachedKV.store (1, "a", "x") = some "old" ∧ "a" ≠ "b")
    ∧ (((sampleCachedKV.rename (1, "a", "x") "b").get 0 (1, "a", "x")).1 = ("", false))
    ∧ (((sampleCachedKV.rename (1, "a", "x") "b").get 0 (1, "b", "x")).1
        = ("old", true)) :=
  ⟨⟨rfl, by decide⟩,
   ((cachedKV_mutation_read_consistency sampleCachedKV 1 "a" "b" "x" "old" 0 0).2.2.2
      rfl (by decide)).1,
   ((cachedKV_mutation_read_consistency sampleCachedKV 1 "a" "b" "x" "old" 0 0).2.2.2
      rfl (by decide)).2⟩

/-- C6 (code bug): `WaitForProvisioning` evaluates `time.After(5*time.Second)`
as a bare expression and discards the returned channel, so it never blocks:
whatever the event schedule, the `wait` flag is re-checked in a zero-length
window and the function proceeds on the very first iteration without waiting
(first conjunct). The spec-modelled behaviour differs: with an event arriving
at clock 2, the specified loop waits the 5-second interval, observes the
notification, repeats the wait once, and proceeds only at clock 10 (second
conjunct). -/
theorem waitForProvisioning_never_waits :
    (∀ events t fuel, waitForProvisioning events t (fuel + 1) = some none)
    ∧ waitForProvisioningSpec [2] 5 0 5 = some 10 := by
  constructor
  · intro events t fuel
    have hany : (events.any fun e => decide (t ≤ e) && decide (e < t)) = false := by
      induction events with
      | nil => rfl
      | cons a l ih =>
        simp only [List.any_cons, ih, Bool.or_false, Bool.and_eq_false_iff,
          decide_eq_false_iff_not]
        omega
    simp [waitForProvisioning, hany]
  · rfl

/-- C10: `WaitForProvisioning` returns nil on every execution path — whenever
the recursion terminates, the returned Go error is nil (first conjunct) — and
`Run` discards its result, so the migration transaction is entered with an
outcome independent of the await-provisioning phase (second conjunct: `Run`
does not depend on the event schedule or on the recursion budget given to
`WaitForProvisioning`). -/
theorem waitForProvisioning_nil_and_discarded :
    (∀ events t fuel r, waitForProvisioning events t fuel = some r → r = none)
    ∧ (∀ svc ev fuel ev2 fuel2 st, Run svc ev fuel st = Run svc ev2 fuel2 st) := by
  constructor
  · intro events t fuel
    induction fuel with
    | zero => intro r h; simp [waitForProvisioning] at h
    | succ n ih =>
      intro r h
      simp only [waitForProvisioning] at h
      split at h
      · exact ih r h
      · exact (Option.some.injEq _ _ ▸ h).symm
  · intro svc ev fuel ev2 fuel2 st; rfl

/-- Closed instance of `waitForProvisioning_nil_and_discarded`. -/
theorem waitForProvisioning_nil_and_discarded_witness :
    waitForProvisioning [2] 0 3 = some none ∧ (none : Option Err) = none :=
  ⟨rfl, waitForProvisioning_nil_and_discarded.1 [2] 0 3 none rfl⟩

/-- C4: the migrate pass runs the whole record set inside one transaction,
and any error during the loop (decrypt, KV `Set`, record update, legacy
secret delete — all injectable through the oracles) makes `Run` surface that
error and roll back every record update: the final record set equals the
initial one. (KV-store writes performed before the failure are outside the
transaction's rollback scope, spec section 5, and may persist.) -/
theorem migration_error_rolls_back_records :
    ∀ svc events fuel st e, (Run svc events fuel st).1 = Except.error e →
      (Run svc events fuel st).2.records = st.records := by
  intro svc events fuel st e h
  simp only [Run] at h ⊢
  cases hl : svc.listErr with
  | some e' => simp [hl]
  | none =>
    simp only [hl] at h ⊢
    rcases hm : migLoop svc st.records st.records st.kv with ⟨oerr, recs', kv'⟩
    cases oerr with
    | none => simp [hm] at h
    | some e' => simp [hm]

/-- Closed instance of `migration_error_rolls_back_records`: a failing
decryption aborts the run with its error and leaves the records as they
were. -/
theorem migration_error_rolls_back_records_witness :
    (Run svcDecryptFail [] 1 ⟨[dsInflux], emptyKV⟩).1 = Except.error "decrypt failed"
    ∧ (Run svcDecryptFail [] 1 ⟨[dsInflux], emptyKV⟩).2.records = [dsInflux] :=
  ⟨rfl, migration_error_rolls_back_records svcDecryptFail [] 1
    ⟨[dsInflux], emptyKV⟩ "decrypt failed" rfl⟩

/-- C5: with tenant 7's record "influx-1" carrying the legacy secret
`password ↦ p@ss` and no completion marker, one migration pass succeeds,
stores the serialized secret under `(7, "influx-1", "datasource")`, sets the
record's completion marker, and — the compatibility-disable flag being
active — clears the non-empty legacy payload of every record, including
`dsMigrated`, whose marker was already set (the cleanup is not gated by the
marker). -/
theorem migration_influx_scenario :
    ((Run svcScenario [] 1 ⟨[dsInflux, dsMigrated], emptyKV⟩).1 = Except.ok ())
    ∧ ((Run svcScenario [] 1 ⟨[dsInflux, dsMigrated], emptyKV⟩).2.kv
        (7, "influx-1", "datasource") = some "\x7b\"password\":\"p@ss\"\x7d")
    ∧ (((Run svcScenario [] 1 ⟨[dsInflux, dsMigrated], emptyKV⟩).2.records.map hasMarker)
        = [true, true])
    ∧ (((Run svcScenario [] 1 ⟨[dsInflux, dsMigrated], emptyKV⟩).2.records.map
        DataSourceRec.secureJsonData) = [[], []]) := by
  refine ⟨rfl, ?_, rfl, rfl⟩
  rfl

/-- Setting a key in a settings blob makes it readable. -/
theorem jsonLookup_jsonSet (j : JsonData) (k : String) (v : JVal) :
    jsonLookup (jsonSet j k v) k = some v := by
  induction j with
  | nil => simp [jsonSet, jsonLookup]
  | cons p rest ih =>
    rcases p with ⟨k', v'⟩
    by_cases h : k' = k
    · simp [jsonSet, jsonLookup, h]
    · simp [jsonSet, jsonLookup, h, ih]

/-- A record whose settings blob was just stamped carries the marker. -/
theorem hasMarker_stamp (r : DataSourceRec) (j : JsonData) :
    hasMarker { r with
      jsonData := jsonSet j "secretMigrationComplete" (JVal.bool true) } = true := by
  simp [hasMarker, jsonLookup_jsonSet]

/-- `pendingFor` is reflexive. -/
theorem pendingFor_refl (flag : Bool) (r : DataSourceRec) : pendingFor flag r r :=
  ⟨rfl, rfl, fun h => h, fun _ h => h⟩

/-- Each element of an `updateRecords` result comes from an input record via
`stampRecord`; the stamping preserves `pendingFor` and `recordDone`, keeps the
legacy payload and identity, and marks the addressed record. -/
theorem update_elem {recs : List DataSourceRec} {id orgId : Int} {j0 : JsonData}
    {r' : DataSourceRec}
    (hr' : r' ∈ updateRecords recs id orgId
      (jsonSet j0 "secretMigrationComplete" (JVal.bool true))) (flag : Bool) :
    ∃ r ∈ recs,
      (∀ ds', pendingFor flag ds' r → pendingFor flag ds' r')
      ∧ (recordDone flag r → recordDone flag r')
      ∧ r'.secureJsonData = r.secureJsonData
      ∧ (r.id = id → r.orgId = orgId → hasMarker r' = true)
      ∧ r'.id = r.id ∧ r'.orgId = r.orgId := by
  unfold updateRecords at hr'
  rcases List.mem_map.mp hr' with ⟨r, hr, rfl⟩
  refine ⟨r, hr, ?_⟩
  unfold stampRecord
  by_cases hc : r.id = id ∧ r.orgId = orgId
  · rw [if_pos hc]
    have hmark := hasMarker_stamp r j0
    exact ⟨fun ds' hp => ⟨hp.1, hp.2.1, fun _ => hmark, hp.2.2.2⟩,
      fun hd => ⟨hmark, hd.2⟩, rfl, fun _ _ => hmark, rfl, rfl⟩
  · rw [if_neg hc]
    exact ⟨fun ds' hp => hp, fun hd => hd, rfl,
      fun h1 h2 => absurd ⟨h1, h2⟩ hc, rfl, rfl⟩

/-- Each element of a successful `cleanupStep` result comes from an input
record; the step preserves `pendingFor` and `recordDone` and the marker,
never un-clears a payload, and clears the payload of the addressed record
whenever the cleanup branch fires. -/
theorem cleanup_elem {svc : MigrationSvc} {ds : DataSourceRec}
    {recs recs' : List DataSourceRec} {kv kv' : KVMap}
    (h : cleanupStep svc ds recs kv = (none, recs', kv'))
    {r' : DataSourceRec} (hr' : r' ∈ recs') :
    ∃ r ∈ recs,
      (∀ ds', pendingFor svc.disableSecretsCompatibility ds' r →
        pendingFor svc.disableSecretsCompatibility ds' r')
      ∧ (recordDone svc.disableSecretsCompatibility r →
          recordDone svc.disableSecretsCompatibility r')
      ∧ hasMarker r' = hasMarker r
      ∧ (r.secureJsonData = [] → r'.secureJsonData = [])
      ∧ (ds.id = r.id → ds.orgId = r.orgId →
          svc.disableSecretsCompatibility = true → 0 < ds.secureJsonData.length →
          r'.secureJsonData = []) := by
  unfold cleanupStep at h
  by_cases hc : svc.disableSecretsCompatibility = true ∧ 0 < ds.secureJsonData.length
  · rw [if_pos hc] at h
    cases hd : svc.deleteErr ds.uid ds.orgId ds.id with
    | some e =>
      rw [hd] at h
      exact absurd (congrArg Prod.fst h) (by simp)
    | none =>
      rw [hd] at h
      injection h with h1 h23
      injection h23 with h2 h3
      subst h2
      rcases List.mem_map.mp hr' with ⟨r, hr, rfl⟩
      refine ⟨r, hr, ?_⟩
      unfold clearRecord
      by_cases hcc : r.id = ds.id ∧ r.orgId = ds.orgId
      · rw [if_pos hcc]
        exact ⟨fun ds' hp => ⟨hp.1, hp.2.1, hp.2.2.1, fun _ _ => rfl⟩,
          fun hd' => ⟨hd'.1, fun _ => rfl⟩, rfl, fun _ => rfl,
          fun _ _ _ _ => rfl⟩
      · rw [if_neg hcc]
        exact ⟨fun ds' hp => hp, fun hd' => hd', rfl, fun he => he,
          fun h1 h2 _ _ => absurd ⟨h1.symm, h2.symm⟩ hcc⟩
  · rw [if_neg hc] at h
    injection h with h1 h23
    injection h23 with h2 h3
    subst h2
    exact ⟨r', hr', fun ds' hp => hp, fun hd' => hd', rfl, fun he => he,
      fun _ _ hflag hlen => absurd ⟨hflag, hlen⟩ hc⟩

/-- Elementwise effect of one successful `migStep`: every output record comes
from an input record; `pendingFor` and `recordDone` transfer, and the record
addressed by the fetched `ds` is fully handled afterwards. -/
theorem migStep_elem {svc : MigrationSvc} {ds : DataSourceRec}
    {recs recs' : List DataSourceRec} {kv kv' : KVMap}
    (h : migStep svc ds recs kv = (none, recs', kv'))
    {r' : DataSourceRec} (hr' : r' ∈ recs') :
    ∃ r ∈ recs,
      (∀ ds', pendingFor svc.disableSecretsCompatibility ds' r →
        pendingFor svc.disableSecretsCompatibility ds' r')
      ∧ (recordDone svc.disableSecretsCompatibility r →
          recordDone svc.disableSecretsCompatibility r')
      ∧ (pendingFor svc.disableSecretsCompatibility ds r →
          recordDone svc.disableSecretsCompatibility r') := by
  unfold migStep at h
  by_cases hm : hasMarker ds = true
  · rw [if_pos hm] at h
    rcases cleanup_elem h hr' with ⟨r, hr, hA, hB, hC, hD, hE⟩
    refine ⟨r, hr, hA, hB, ?_⟩
    intro hp
    rcases hp with ⟨h1, h2, h3, h4⟩
    refine ⟨hC.trans (h3 hm), ?_⟩
    intro hflag
    rcases hempty : ds.secureJsonData with _ | ⟨p, rest⟩
    · exact hD (h4 hflag hempty)
    · exact hE h1 h2 hflag (by rw [hempty]; exact Nat.succ_pos _)
  · rw [if_neg hm] at h
    cases hdec : svc.decrypt ds with
    | error e =>
      rw [hdec] at h
      exact absurd (congrArg Prod.fst h) (by simp)
    | ok sec =>
      simp only [hdec] at h
      cases hset : svc.setErr ds.orgId ds.name dataSourceSecretType
          (serializeSecrets sec) with
      | some e =>
        simp only [hset] at h
        exact absurd (congrArg Prod.fst h) (by simp)
      | none =>
        simp only [hset] at h
        cases hupd : svc.updateErr ds.id ds.orgId ds.uid
            (jsonSet ds.jsonData "secretMigrationComplete" (JVal.bool true)) with
        | some e =>
          simp only [hupd] at h
          exact absurd (congrArg Prod.fst h) (by simp)
        | none =>
          simp only [hupd] at h
          rcases cleanup_elem h hr' with ⟨r₁, hr₁, hA1, hB1, hC1, hD1, hE1⟩
          rcases update_elem hr₁ svc.disableSecretsCompatibility with
            ⟨r, hr, hA0, hB0, hC0, hD0, hid0, horg0⟩
          refine ⟨r, hr, fun ds' hp => hA1 ds' (hA0 ds' hp),
            fun hd => hB1 (hB0 hd), ?_⟩
          intro hp
          rcases hp with ⟨h1, h2, h3, h4⟩
          have hmark1 : hasMarker r₁ = true := hD0 h1.symm h2.symm
          refine ⟨hC1.trans hmark1, ?_⟩
          intro hflag
          rcases hempty : ds.secureJsonData with _ | ⟨p, rest⟩
          · exact hD1 (by rw [hC0]; exact h4 hflag hempty)
          · exact hE1 (h1.trans hid0.symm) (h2.trans horg0.symm) hflag
              (by rw [hempty]; exact Nat.succ_pos _)

/-- If the migration loop succeeds and every input record is either already
fully handled or is addressed by some fetched record, then every output
record is fully handled. -/
theorem migLoop_all_done {svc : MigrationSvc} :
    ∀ (fetched recs : List DataSourceRec) (kv : KVMap)
      (recs' : List DataSourceRec) (kv' : KVMap),
      migLoop svc fetched recs kv = (none, recs', kv') →
      (∀ r ∈ recs, recordDone svc.disableSecretsCompatibility r
        ∨ ∃ ds ∈ fetched, pendingFor svc.disableSecretsCompatibility ds r) →
      ∀ r' ∈ recs', recordDone svc.disableSecretsCompatibility r' := by
  intro fetched
  induction fetched with
  | nil =>
    intro recs kv recs' kv' h hinv r' hr'
    unfold migLoop at h
    injection h with h1 h23
    injection h23 with h2 h3
    subst h2
    rcases hinv r' hr' with hd | ⟨ds, hds, _⟩
    · exact hd
    · exact absurd hds (List.not_mem_nil ds)
  | cons ds rest ih =>
    intro recs kv recs' kv' h hinv r' hr'
    rcases hstep : migStep svc ds recs kv with ⟨oerr, recs₁, kv₁⟩
    simp only [migLoop, hstep] at h
    cases oerr with
    | some e => simp at h
    | none =>
      refine ih recs₁ kv₁ recs' kv' h ?_ r' hr'
      intro r₁ hr₁
      rcases migStep_elem hstep hr₁ with ⟨r, hr, hpres, hdone, hprog⟩
      rcases hinv r hr with hd | ⟨ds₀, hds₀, hpend⟩
      · exact Or.inl (hdone hd)
      · rcases List.mem_cons.mp hds₀ with heq | hds₀rest
        · exact Or.inl (hprog (heq ▸ hpend))
        · exact Or.inr ⟨ds₀, hds₀rest, hpres ds₀ hpend⟩

/-- A migration loop over fully handled fetched records changes nothing and
succeeds: the marker makes the migrate step skip, and an empty legacy payload
makes the cleanup step skip. -/
theorem migLoop_noop {svc : MigrationSvc} :
    ∀ (fetched : List DataSourceRec),
      (∀ ds ∈ fetched, recordDone svc.disableSecretsCompatibility ds) →
      ∀ recs kv, migLoop svc fetched recs kv = (none, recs, kv) := by
  intro fetched
  induction fetched with
  | nil => intro _ recs kv; rfl
  | cons ds rest ih =>
    intro hdone recs kv
    rcases hdone ds (List.mem_cons_self ds rest) with ⟨hm, hsec⟩
    have hstep : migStep svc ds recs kv = (none, recs, kv) := by
      unfold migStep
      rw [if_pos hm]
      unfold cleanupStep
      by_cases hf : svc.disableSecretsCompatibility = true
      · rw [hsec hf]
        simp
      · rw [if_neg fun hcontra => hf hcontra.1]
    simp only [migLoop, hstep]
    exact ih (fun d hd => hdone d (List.mem_cons_of_mem ds hd)) recs kv

/-- C3: the migrate pass is idempotent — if a run of the Migration Engine
succeeds, running it again from the resulting state succeeds and leaves the
state (records with their completion markers, and the KV-store content)
exactly as after the first run: every record ends the first run with its
marker set (so decrypt, serialize, `Set` and the marker update are skipped on
the re-run) and, when the compatibility-disable flag is on, with an empty
legacy payload (so the cleanup delete is skipped too). -/
theorem migration_run_idempotent :
    ∀ (svc : MigrationSvc) (ev : List Nat) (fuel : Nat) (ev2 : List Nat)
      (fuel2 : Nat) (st : MigState),
      (Run svc ev fuel st).1 = Except.ok () →
      Run svc ev2 fuel2 ((Run svc ev fuel st).2) = (Except.ok (), (Run svc ev fuel st).2) := by
  intro svc ev fuel ev2 fuel2 st h
  cases hl : svc.listErr with
  | some e => simp [Run, hl] at h
  | none =>
    rcases hm : migLoop svc st.records st.records st.kv with ⟨oerr, recs', kv'⟩
    cases oerr with
    | some e => simp [Run, hl, hm] at h
    | none =>
      have hrun : Run svc ev fuel st = (Except.ok (), ⟨recs', kv'⟩) := by
        simp [Run, hl, hm]
      rw [hrun]
      have hall : ∀ r' ∈ recs', recordDone svc.disableSecretsCompatibility r' :=
        migLoop_all_done st.records st.records st.kv recs' kv' hm
          (fun r hr => Or.inr ⟨r, hr, pendingFor_refl svc.disableSecretsCompatibility r⟩)
      have hnoop : migLoop svc recs' recs' kv' = (none, recs', kv') :=
        migLoop_noop recs' hall recs' kv'
      simp [Run, hl, hnoop]

/-- Closed instance of `migration_run_idempotent` on the concrete scenario
state. -/
theorem migration_run_idempotent_witness :
    (Run svcScenario [] 1 ⟨[dsInflux, dsMigrated], emptyKV⟩).1 = Except.ok ()
    ∧ Run svcScenario [] 1 ((Run svcScenario [] 1 ⟨[dsInflux, dsMigrated], emptyKV⟩).2)
        = (Except.ok (), (Run svcScenario [] 1 ⟨[dsInflux, dsMigrated], emptyKV⟩).2) :=
  ⟨rfl, migration_run_idempotent svcScenario [] 1 [] 1
    ⟨[dsInflux, dsMigrated], emptyKV⟩ rfl⟩

/-- C9: a record whose `secretMigrationComplete` settings entry is absent or
not the boolean `true` is treated as unmigrated — the marker reads as set
exactly when the entry is the boolean `true` (the `.Bool()` conversion error
is discarded). For such a record the migration steps run: a failing decrypt
call surfaces its error (showing decrypt was invoked), and when decrypt, KV
`Set` and the record update succeed, the KV store holds the serialized
secrets under (orgId, name, "datasource") and the updated record carries the
marker. -/
theorem unmigrated_when_marker_not_true :
    (∀ ds : DataSourceRec, hasMarker ds = true ↔
        jsonLookup ds.jsonData "secretMigrationComplete" = some (JVal.bool true))
    ∧ (∀ svc ds recs kv e, hasMarker ds = false →
        svc.decrypt ds = .error e →
        migStep svc ds recs kv = (some e, recs, kv))
    ∧ (∀ svc ds recs kv sec, hasMarker ds = false →
        svc.decrypt ds = .ok sec →
        svc.setErr ds.orgId ds.name dataSourceSecretType (serializeSecrets sec) = none →
        svc.updateErr ds.id ds.orgId ds.uid
          (jsonSet ds.jsonData "secretMigrationComplete" (JVal.bool true)) = none →
        ((migStep svc ds recs kv).2.2 (ds.orgId, ds.name, dataSourceSecretType)
            = some (serializeSecrets sec)
          ∧ ∀ r' ∈ (migStep svc ds recs kv).2.1,
              r'.id = ds.id → r'.orgId = ds.orgId → hasMarker r' = true)) := by
  refine ⟨?_, ?_, ?_⟩
  · intro ds
    unfold hasMarker
    cases hj : jsonLookup ds.jsonData "secretMigrationComplete" with
    | none => simp
    | some jv =>
      cases jv with
      | bool b => cases b <;> simp
      | str s => simp
      | num n => simp
  · intro svc ds recs kv e hm hdec
    unfold migStep
    rw [if_neg (by simp [hm])]
    simp only [hdec]
  · intro svc ds recs kv sec hm hdec hset hupd
    have hstep : migStep svc ds recs kv =
        cleanupStep svc ds
          (updateRecords recs ds.id ds.orgId
            (jsonSet ds.jsonData "secretMigrationComplete" (JVal.bool true)))
          (mupdate kv (ds.orgId, ds.name, dataSourceSecretType)
            (some (serializeSecrets sec))) := by
      unfold migStep
      rw [if_neg (by simp [hm])]
      simp only [hdec, hset, hupd]
    rw [hstep]
    have hkv : ∀ (recs0 : List DataSourceRec) (kv0 : KVMap),
        (cleanupStep svc ds recs0 kv0).2.2 = kv0 := by
      intro recs0 kv0
      unfold cleanupStep
      by_cases hc : svc.disableSecretsCompatibility = true ∧ 0 < ds.secureJsonData.length
      · rw [if_pos hc]
        cases svc.deleteErr ds.uid ds.orgId ds.id <;> rfl
      · rw [if_neg hc]
    have hmem : ∀ (recs0 : List DataSourceRec) (kv0 : KVMap) (r' : DataSourceRec),
        r' ∈ (cleanupStep svc ds recs0 kv0).2.1 →
        ∃ r₁ ∈ recs0, hasMarker r' = hasMarker r₁
          ∧ r'.id = r₁.id ∧ r'.orgId = r₁.orgId := by
      intro recs0 kv0 r' hr'
      unfold cleanupStep at hr'
      by_cases hc : svc.disableSecretsCompatibility = true ∧ 0 < ds.secureJsonData.length
      · rw [if_pos hc] at hr'
        cases hd : svc.deleteErr ds.uid ds.orgId ds.id with
        | some e =>
          rw [hd] at hr'
          exact ⟨r', hr', rfl, rfl, rfl⟩
        | none =>
          rw [hd] at hr'
          replace hr' : r' ∈ List.map (clearRecord ds.id ds.orgId) recs0 := hr'
          rcases List.mem_map.mp hr' with ⟨r₁, hr₁, rfl⟩
          refine ⟨r₁, hr₁, ?_⟩
          unfold clearRecord
          by_cases hcc : r₁.id = ds.id ∧ r₁.orgId = ds.orgId
          · rw [if_pos hcc]; exact ⟨rfl, rfl, rfl⟩
          · rw [if_neg hcc]; exact ⟨rfl, rfl, rfl⟩
      · rw [if_neg hc] at hr'
        exact ⟨r', hr', rfl, rfl, rfl⟩
    constructor
    · rw [hkv]
      unfold mupdate
      simp
    · intro r' hr' hid horg
      rcases hmem _ _ r' hr' with ⟨r₁, hr₁, hmark, hid1, horg1⟩
      rcases update_elem hr₁ svc.disableSecretsCompatibility with
        ⟨r, hr, hA0, hB0, hC0, hD0, hid0, horg0⟩
      rw [hmark]
      exact hD0 (hid0.symm.trans (hid1.symm.trans hid))
        (horg0.symm.trans (horg1.symm.trans horg))

/-- Closed instance of `unmigrated_when_marker_not_true`: the scenario record
has no marker entry, so the decrypt step runs and its failure surfaces. -/
theorem unmigrated_when_marker_not_true_witness :
    (hasMarker dsInflux = false
      ∧ svcDecryptFail.decrypt dsInflux = .error "decrypt failed")
    ∧ migStep svcDecryptFail dsInflux [] emptyKV
        = (some "decrypt failed", [], emptyKV) :=
  ⟨⟨rfl, rfl⟩, unmigrated_when_marker_not_true.2.1 svcDecryptFail dsInflux [] emptyKV
    "decrypt failed" rfl rfl⟩
